import Mathlib

set_option autoImplicit false

/-!
# Society backend: password reset flow and id_token exchange

A shallow embedding of `controllers/resetPassword.go`, `controllers/jwt.go`
and `helper/mail.go`.

The handlers are request/response glue around a relational store, an SMTP
dialer, a bcrypt hasher, a wall clock and a JWT library.  Each handler is
embedded as a pure function of

* the decoded request,
* the store contents before the call (`World`), and
* an environment record holding what the outside world answers during the
  call (clock readings, injected store failures, the generated code, ...).

It returns the HTTP response together with the store contents after the call.
-/

namespace Society

/-! ## Time (package `time`) -/

/-- An instant, as nanoseconds since the Unix epoch. -/
abbrev Time := Int

/-- The duration `time.Second`, in nanoseconds. -/
def Second : Int := 1000000000

/-- The duration `time.Minute`, in nanoseconds. -/
def Minute : Int := 60 * Second

/-- The duration `time.Hour`, in nanoseconds. -/
def Hour : Int := 60 * Minute

/-- Go `t.Add(d)`. -/
def Time.Add (t : Time) (d : Int) : Time := t + d

/-- Go `t.After(u)`: whether `t` is strictly later than `u`. -/
def Time.After (t u : Time) : Bool := decide (u < t)

/-- Go `t.Unix()`: whole seconds since the epoch, rounded down. -/
def Time.Unix (t : Time) : Int := t / Second

/-! ## Rows of the two tables (package `models`) -/

/-- Modelled from the spec: the `models` package is not among the sources.  A
`SocietyUser` row carries the two columns the handlers read and write, the
e-mail address and the stored password hash. -/
structure SocietyUser where
  Email : String
  Password : String
deriving DecidableEq, Repr

/-- Modelled from the spec: the `models` package is not among the sources.  A
`SocietyResetPassword` row carries the reset code, the e-mail address it was
issued for and its expiry instant, the three columns the handlers use. -/
structure SocietyResetPassword where
  Code : String
  Email : String
  ExpiresAt : Time
deriving DecidableEq, Repr

/-! ## The store (gorm)

A table is the list of its rows in primary-key order.  A row fetched by a
query is identified by its position, which plays the role of the primary key
gorm uses for `Save` and `Delete`.  Every store call can fail for reasons
outside the program (connection lost, ...); such a failure is injected through
an `Option String` argument and leaves the table as it was. -/

/-- Outcome of `DB.Where(...).First(&row)`. -/
inductive QueryResult (α : Type) where
  | found (idx : Nat) (row : α)
  | notFound
  | failed (err : String)
deriving Repr

/-- Position and contents of the first row satisfying `p`. -/
def firstMatch {α : Type} (p : α → Bool) : List α → Option (Nat × α)
  | [] => none
  | r :: rs => if p r then some (0, r) else (firstMatch p rs).map (fun x => (x.1 + 1, x.2))

/-- The query `DB.Where(p).First(&row)`: the first matching row,
`gorm.ErrRecordNotFound` when there is none, or the injected failure. -/
def First {α : Type} (fault : Option String) (p : α → Bool) (rows : List α) : QueryResult α :=
  match fault with
  | some err => .failed err
  | none =>
    match firstMatch p rows with
    | some (i, r) => .found i r
    | none => .notFound

/-- The call `DB.Save(&row)` for a row previously fetched at position `idx`:
all its columns are written back. -/
def Save {α : Type} (fault : Option String) (idx : Nat) (row : α) (rows : List α) :
    Option String × List α :=
  match fault with
  | some err => (some err, rows)
  | none => (none, rows.set idx row)

/-- The call `DB.Create(&row)`: a new row is inserted after the existing ones. -/
def Create {α : Type} (fault : Option String) (row : α) (rows : List α) :
    Option String × List α :=
  match fault with
  | some err => (some err, rows)
  | none => (none, rows ++ [row])

/-- The call `DB.Delete(&row)` for a row previously fetched at position `idx`. -/
def Delete {α : Type} (fault : Option String) (idx : Nat) (rows : List α) :
    Option String × List α :=
  match fault with
  | some err => (some err, rows)
  | none => (none, rows.eraseIdx idx)

/-! ## Outgoing mail (`helper/mail.go`) -/

/-- A message handed to the SMTP dialer. -/
structure Mail where
  From : String
  Recipient : String
  Subject : String
  Body : String
deriving DecidableEq, Repr

/-- Everything the handlers can read or change. -/
structure World where
  users : List SocietyUser
  resets : List SocietyResetPassword
  /-- Messages delivered by the dialer so far. -/
  outbox : List Mail
  /-- How many times `helper.GenerateToken` has been called so far. -/
  tokenCalls : Nat
deriving DecidableEq, Repr

/-- `helper.SendEmail`: build the message and `DialAndSend` it; `dialErr` is
the dialer's failure, if any. -/
def helper.SendEmail (dialErr : Option String) (recipient subject body : String)
    (outbox : List Mail) : Option String × List Mail :=
  let m : Mail :=
    { From := "mohit84cseb22@bpitindia.edu.in", Recipient := recipient,
      Subject := subject, Body := body }
  match dialErr with
  | some err => (some err, outbox)
  | none => (none, outbox ++ [m])

/-! ## HTTP responses -/

/-- A response body: plain text, or a JSON object of string fields (keys in
the encoder's order, which is alphabetical for a Go map). -/
inductive Body where
  | text (s : String)
  | json (fields : List (String × String))
deriving DecidableEq, Repr

/-- Status code and body written to the `http.ResponseWriter`. -/
structure Response where
  status : Nat
  body : Body
deriving DecidableEq, Repr

/-- Go `http.Error(w, msg, code)`: the status, and the message followed by a
newline as plain text. -/
def httpError (msg : String) (code : Nat) : Response :=
  { status := code, body := .text (msg ++ "\n") }

def StatusOK : Nat := 200
def StatusBadRequest : Nat := 400
def StatusNotFound : Nat := 404
def StatusInternalServerError : Nat := 500

/-! ## `SendEmail` -/

structure EmailRequest where
  Email : String
deriving DecidableEq, Repr

/-- What the outside world answers during one call of `SendEmail`. -/
structure SendEnv where
  /-- Failure of the user query (line 42) other than "record not found". -/
  userLookupErr : Option String
  /-- Result of `helper.GenerateToken()`. -/
  GenerateToken : Except String String
  /-- The function `helper.GenerateLink`. -/
  GenerateLink : String → String
  /-- Reading of `time.Now()` on line 62. -/
  now1 : Time
  /-- Reading of `time.Now()` on line 82. -/
  now2 : Time
  /-- Answer of `Migrator().HasTable`. -/
  hasTable : Bool
  /-- Failure of `AutoMigrate`, if any. -/
  autoMigrateErr : Option String
  /-- Failure of the reset-record query (line 73) other than "record not found". -/
  resetLookupErr : Option String
  /-- Failure of `Save` (line 83), if any. -/
  saveErr : Option String
  /-- Failure of `Create` (line 89), if any. -/
  createErr : Option String
  /-- Failure of the SMTP dialer, if any. -/
  dialErr : Option String

/-- The HTML body of the reset mail: the format string of line 95 with the
link substituted for its only verb. -/
def emailBody (resetLink : String) : String :=
  "\n    <p>Dear User,</p>\n\n" ++
  "    <p>We received a request to reset your password for your BPIT Alumni Website account.</p>\n\n" ++
  "    <p>Please click the link below to Change your password:</p>\n\n" ++
  "    <p><a href=\"" ++ resetLink ++ "\"><strong>Click Here</strong></a></p>\n\n" ++
  "    <p>This link is valid for the next 5 minutes. If you did not request for a password reset, please ignore this email and your password will remain unchanged.</p>\n\n" ++
  "    <p>If you have any questions or need further assistance, feel free to contact our support team.</p>\n\n" ++
  "    <p>Best regards,</p>\n" ++
  "    <p>BPIT Team</p>\n\n" ++
  "    <hr>\n" ++
  "    <p>Bhagwan Parshuram Institute of Technology</p>\n" ++
  "    <p>Alumni Association</p>\n" ++
  "    <p><a href=\"https://alumni.bpitindia.com/\">BPIT Alumni Website</a></p>"

/-- The handler `SendEmail`.  `body` is the result of decoding the request
body as JSON.  The code after the update/create branches (send the mail, write
the 200 response) appears once under each branch. -/
def SendEmail (env : SendEnv) (body : Except String EmailRequest) (w : World) :
    Response × World :=
  match body with
  | .error _ => (httpError "Invalid request payload" StatusBadRequest, w)
  | .ok emailReq =>
    let email := emailReq.Email
    -- Check if email exists in AlumniProfile
    match First env.userLookupErr (fun u => u.Email == email) w.users with
    | .notFound => (httpError "Email not found in AlumniProfile" StatusNotFound, w)
    | .failed _ => (httpError "Internal server error" StatusInternalServerError, w)
    | .found _ _ =>
      let w1 := { w with tokenCalls := w.tokenCalls + 1 }
      match env.GenerateToken with
      | .error _ => (httpError "Internal server error" StatusInternalServerError, w1)
      | .ok token =>
        let resetLink := env.GenerateLink token
        let resetToken : SocietyResetPassword :=
          { Code := token, Email := email, ExpiresAt := Time.Add env.now1 (5 * Minute) }
        -- Check if table exists or create it if it doesn't
        match (if !env.hasTable then env.autoMigrateErr else none) with
        | some err => (httpError err StatusInternalServerError, w1)
        | none =>
          -- Check if a token already exists for this email
          match First env.resetLookupErr (fun r => r.Email == email) w1.resets with
          | .failed _ => (httpError "Internal server error" StatusInternalServerError, w1)
          | .found idx existingToken =>
            -- Token exists, update it
            let existingToken1 :=
              { existingToken with Code := token, ExpiresAt := Time.Add env.now2 (5 * Minute) }
            match Save env.saveErr idx existingToken1 w1.resets with
            | (some err, _) => (httpError err StatusInternalServerError, w1)
            | (none, resets1) =>
              let w2 := { w1 with resets := resets1 }
              match helper.SendEmail env.dialErr email "Password Reset Request"
                  (emailBody resetLink) w2.outbox with
              | (some _, _) => (httpError "Failed to send email" StatusInternalServerError, w2)
              | (none, outbox1) =>
                ({ status := StatusOK,
                   body := .json [("email", email),
                                  ("message", "Email received for reset Password"),
                                  ("token", token)] },
                 { w2 with outbox := outbox1 })
          | .notFound =>
            -- Token does not exist, create a new one
            match Create env.createErr resetToken w1.resets with
            | (some err, _) => (httpError err StatusInternalServerError, w1)
            | (none, resets1) =>
              let w2 := { w1 with resets := resets1 }
              match helper.SendEmail env.dialErr email "Password Reset Request"
                  (emailBody resetLink) w2.outbox with
              | (some _, _) => (httpError "Failed to send email" StatusInternalServerError, w2)
              | (none, outbox1) =>
                ({ status := StatusOK,
                   body := .json [("email", email),
                                  ("message", "Email received for reset Password"),
                                  ("token", token)] },
                 { w2 with outbox := outbox1 })

/-! ## `VerifyReset` -/

structure ResetPasswordRequest where
  NewPassword : String
  Token : String
  Email : String
  ConfirmNewPassword : String
deriving DecidableEq, Repr

/-- What the outside world answers during one call of `VerifyReset`. -/
structure VerifyEnv where
  /-- Reading of `time.Now()` on line 155. -/
  now : Time
  /-- Failure of the reset-record query (line 144) other than "record not found". -/
  resetLookupErr : Option String
  /-- The function `bcrypt.GenerateFromPassword` at the default cost. -/
  GenerateFromPassword : String → Except String String
  /-- Failure of the user query (line 174) other than "record not found". -/
  userLookupErr : Option String
  /-- Failure of `Save` (line 185), if any. -/
  saveErr : Option String
  /-- Failure of `Delete` (line 190), if any; the handler ignores it. -/
  deleteErr : Option String

/-- The handler `VerifyReset`.  `body` is the result of decoding the request
body as JSON. -/
def VerifyReset (env : VerifyEnv) (body : Except String ResetPasswordRequest) (w : World) :
    Response × World :=
  match body with
  | .error err => (httpError err StatusBadRequest, w)
  | .ok req =>
    if req.Token == "" then (httpError "Invalid token" StatusBadRequest, w)
    else
      -- Validate the token
      match First env.resetLookupErr (fun r => r.Code == req.Token && r.Email == req.Email)
          w.resets with
      | .notFound => (httpError "Invalid or expired token" StatusBadRequest, w)
      | .failed _ => (httpError "Internal server error" StatusInternalServerError, w)
      | .found ridx resetToken =>
        -- Check if the token has expired
        if Time.After env.now resetToken.ExpiresAt then
          (httpError "Token has expired" StatusBadRequest, w)
        else if req.NewPassword != req.ConfirmNewPassword then
          (httpError "Passwords do not match" StatusBadRequest, w)
        else
          -- Hash the new password
          match env.GenerateFromPassword req.NewPassword with
          | .error _ => (httpError "Failed to hash password" StatusInternalServerError, w)
          | .ok hashedPassword =>
            -- Find the alumni by email and update the password
            match First env.userLookupErr (fun u => u.Email == resetToken.Email) w.users with
            | .notFound => (httpError "Alumni not found" StatusNotFound, w)
            | .failed _ => (httpError "Internal server error" StatusInternalServerError, w)
            | .found uidx user =>
              let user1 := { user with Password := hashedPassword }
              match Save env.saveErr uidx user1 w.users with
              | (some _, _) => (httpError "Failed to update password" StatusInternalServerError, w)
              | (none, users1) =>
                let w1 := { w with users := users1 }
                let w2 := { w1 with resets := (Delete env.deleteErr ridx w1.resets).2 }
                ({ status := StatusOK, body := .text "Password has been reset successfully" }, w2)

/-! ## JSON values and tokens (package `jwt`) -/

/-- A decoded JSON value, the dynamic content of a Go `interface{}`;
`null` is also Go's `nil`, the value of a missing map entry. -/
inductive Value where
  | null
  | bool (b : Bool)
  | num (n : Int)
  | str (s : String)
  | arr (items : List Value)
  | obj (fields : List (String × Value))

/-- A Go `map[string]interface{}`: token headers and `jwt.MapClaims`. -/
abbrev MapClaims := List (String × Value)

/-- Go map indexing `m[k]`: the entry, or `nil` when there is none. -/
def index (m : MapClaims) (k : String) : Value :=
  (m.lookup k).getD Value.null

/-- The type assertion `v.(string)`: `none` stands for the run-time panic
raised when the dynamic type of `v` is not `string`. -/
def Value.assertString : Value → Option String
  | .str s => some s
  | _ => none

/-- The signing methods registered by the library, by concrete Go type and
`alg` name. -/
inductive SigningMethod where
  | SigningMethodHMAC (alg : String)
  | SigningMethodRSA (alg : String)
  | SigningMethodRSAPSS (alg : String)
  | SigningMethodECDSA (alg : String)
  | signingMethodNone
deriving DecidableEq, Repr

def SigningMethodHS256 : SigningMethod := .SigningMethodHMAC "HS256"

/-- Go `m.Alg()`. -/
def SigningMethod.Alg : SigningMethod → String
  | .SigningMethodHMAC a => a
  | .SigningMethodRSA a => a
  | .SigningMethodRSAPSS a => a
  | .SigningMethodECDSA a => a
  | .signingMethodNone => "none"

/-- The type assertion `token.Method.(*jwt.SigningMethodRSA)` succeeds. -/
def SigningMethod.isRSA : SigningMethod → Bool
  | .SigningMethodRSA _ => true
  | _ => false

/-- The library's `jwt.Token`. -/
structure Token where
  Raw : String
  Method : SigningMethod
  Header : MapClaims
  Claims : MapClaims
  Signature : String
  Valid : Bool

/-- Go `jwt.NewWithClaims(method, claims)`. -/
def NewWithClaims (method : SigningMethod) (claims : MapClaims) : Token :=
  { Raw := "", Method := method,
    Header := [("typ", .str "JWT"), ("alg", .str method.Alg)],
    Claims := claims, Signature := "", Valid := false }

/-! ## The key set (package `utils`) -/

/-- Modelled from the spec: the `utils` package is not among the sources.  One
published public key with its key id. -/
structure JWK where
  Kid : String
  Key : String
deriving DecidableEq, Repr

/-- Modelled from the spec: the `utils` package is not among the sources.  A
JSON Web Key Set, "a published collection of public keys". -/
structure JWKS where
  Keys : List JWK
deriving DecidableEq, Repr

/-- Modelled from the spec: `FindKey` of the `utils` package, which is not
among the sources; the spec's "match by key id": the first key of the set
whose id is `kid`, an error when there is none. -/
def JWKS.FindKey (jwks : JWKS) (kid : String) : Except String JWK :=
  match jwks.Keys.find? (fun k => k.Kid == kid) with
  | some k => .ok k
  | none => .error "key not found"

/-! ## `ValidateTokenAndGenerateJWT` -/

/-- What the outside world answers during one call of
`ValidateTokenAndGenerateJWT`. -/
structure JwtEnv where
  /-- The library's `Parser.ParseUnverified` with `MapClaims`. -/
  ParseUnverified : String → Except String Token
  /-- The function `utils.FetchJWKS`, an HTTP fetch of the given URL. -/
  FetchJWKS : String → Except String JWKS
  /-- Claims validation and signature verification inside `jwt.Parse`:
  the validation error, `none` when the token is valid under the key. -/
  Verify : Token → JWK → Option String
  /-- The library's `token.SignedString(key)`. -/
  SignedString : Token → String → Except String String
  /-- The function `os.Getenv`. -/
  Getenv : String → String
  /-- Reading of `time.Now()` on line 57. -/
  now : Time

/-- The library's `jwt.Parse(tokenString, keyFunc)`: parse, ask `keyFunc` for
the key, validate the claims and the signature; the token is marked `Valid`
exactly when no error is returned. -/
def jwt.Parse (env : JwtEnv) (tokenString : String) (keyFunc : Token → Except String JWK) :
    Option Token × Option String :=
  match env.ParseUnverified tokenString with
  | .error err => (none, some err)
  | .ok token =>
    match keyFunc token with
    | .error err => (some token, some err)
    | .ok key =>
      match env.Verify token key with
      | some err => (some token, some err)
      | none => (some { token with Valid := true }, none)

/-- Go `strings.HasPrefix(s, pre)`. -/
def strings.HasPrefix (s pre : String) : Bool :=
  pre.toList.isPrefixOf s.toList

/-- Calls that leave the process or enter the library, in program order. -/
inductive Call where
  | ParseUnverified
  | FetchJWKS
  | FindKey
  | Parse
  | SignedString
deriving DecidableEq, Repr

/-- How a call of the function ends: it returns its two results, or a failed
type assertion panics. -/
inductive Outcome where
  | returned (token : String) (err : Option String)
  | panicked
deriving DecidableEq, Repr

def jwksURL : String := "https://login.microsoftonline.com/common/discovery/v2.0/keys"

/-- The function `ValidateTokenAndGenerateJWT`, with the calls it made.  In the
key function the `alg` header printed in the error is the name of the token's
method, which is how the parser chose the method. -/
def ValidateTokenAndGenerateJWT (env : JwtEnv) (idToken : String) : List Call × Outcome :=
  -- Parsing the token
  match env.ParseUnverified idToken with
  | .error err => ([.ParseUnverified], .returned "" (some ("invalid token: " ++ err)))
  | .ok token =>
    let claims := token.Claims
    match (index token.Header "kid").assertString with
    | none => ([.ParseUnverified], .panicked)
    | some kid =>
      match (index claims "iss").assertString with
      | none => ([.ParseUnverified], .panicked)
      | some issuer =>
        match (index claims "aud").assertString with
        | none => ([.ParseUnverified], .panicked)
        | some audience =>
          -- Fetching the JWKS (JSON Web Key Set)
          match env.FetchJWKS jwksURL with
          | .error err =>
            ([.ParseUnverified, .FetchJWKS],
             .returned "" (some ("failed to fetch JWKS: " ++ err)))
          | .ok jwks =>
            -- Find the key
            match jwks.FindKey kid with
            | .error err =>
              ([.ParseUnverified, .FetchJWKS, .FindKey],
               .returned "" (some ("failed to find key: " ++ err)))
            | .ok key =>
              -- Validate the token
              match jwt.Parse env idToken (fun token =>
                  if token.Method.isRSA then .ok key
                  else .error ("unexpected signing method: " ++ token.Method.Alg)) with
              | (_, some err) =>
                ([.ParseUnverified, .FetchJWKS, .FindKey, .Parse],
                 .returned "" (some ("invalid token: " ++ err)))
              | (none, none) =>
                ([.ParseUnverified, .FetchJWKS, .FindKey, .Parse], .panicked)
              | (some parsedToken, none) =>
                if !parsedToken.Valid then
                  ([.ParseUnverified, .FetchJWKS, .FindKey, .Parse],
                   .returned "" (some "invalid token: <nil>"))
                -- Validate issuer and audience
                else if !strings.HasPrefix issuer "https://login.microsoftonline.com/"
                    || audience != env.Getenv "CLIENT_ID" then
                  ([.ParseUnverified, .FetchJWKS, .FindKey, .Parse],
                   .returned "" (some "invalid issuer or audience"))
                else
                  -- Generating a new JWT
                  let newToken := NewWithClaims SigningMethodHS256
                    [("sub", index claims "sub"),
                     ("exp", .num (Time.Unix (Time.Add env.now (Hour * 1))))]
                  let jwtKey := env.Getenv "JWT_KEY"
                  match env.SignedString newToken jwtKey with
                  | .error err =>
                    ([.ParseUnverified, .FetchJWKS, .FindKey, .Parse, .SignedString],
                     .returned "" (some ("failed to generate JWT: " ++ err)))
                  | .ok jwtString =>
                    ([.ParseUnverified, .FetchJWKS, .FindKey, .Parse, .SignedString],
                     .returned jwtString none)

/-! ## Derived notions used to state the properties -/

/-- The world `VerifyReset` leaves behind on its success path. -/
def afterReset (env : VerifyEnv) (w : World) (ridx uidx : Nat) (user : SocietyUser)
    (hashedPassword : String) : World :=
  { users := w.users.set uidx { user with Password := hashedPassword },
    resets := (Delete env.deleteErr ridx w.resets).2,
    outbox := w.outbox, tokenCalls := w.tokenCalls }

/-- The reset mail `SendEmail` hands to the dialer. -/
def resetMail (env : SendEnv) (email token : String) : Mail :=
  { From := "mohit84cseb22@bpitindia.edu.in", Recipient := email,
    Subject := "Password Reset Request", Body := emailBody (env.GenerateLink token) }

/-- The body of the 200 response of `SendEmail`. -/
def sendOKBody (email token : String) : Body :=
  .json [("email", email), ("message", "Email received for reset Password"), ("token", token)]

/-- Each e-mail address has at most one reset record: any two rows of the
table carry different addresses. -/
def AtMostOnePerEmail (resets : List SocietyResetPassword) : Prop :=
  resets.Pairwise (fun a b => a.Email ≠ b.Email)

instance (resets : List SocietyResetPassword) : Decidable (AtMostOnePerEmail resets) :=
  inferInstanceAs (Decidable (resets.Pairwise (fun a b : SocietyResetPassword => a.Email ≠ b.Email)))

/-- The users table after the stored password of the (first) user whose
address is `e` has been replaced by `hashed`. -/
def replacePassword (e hashed : String) : List SocietyUser → List SocietyUser
  | [] => []
  | u :: us =>
    if u.Email = e then { u with Password := hashed } :: us
    else u :: replacePassword e hashed us

/-- The token minted on the success path: HS256, claims `sub` and `exp`. -/
def mintedToken (env : JwtEnv) (token : Token) : Token :=
  NewWithClaims SigningMethodHS256
    [("sub", index token.Claims "sub"),
     ("exp", .num (Time.Unix (Time.Add env.now (Hour * 1))))]

/-- The conditions under which an id_token is exchanged, in the words of the
contract: the token parses with string `kid`, `iss` and `aud`; the fetched key
set contains a key whose id is the `kid` (the one `FindKey` returns); the
token uses an RSA signing method and is valid under that key; `iss` starts
with the Microsoft login URL; `aud` is the `CLIENT_ID` environment value. -/
def Checks (env : JwtEnv) (idToken : String) : Prop :=
  ∃ token kid iss aud jwks key,
    env.ParseUnverified idToken = .ok token ∧
    index token.Header "kid" = .str kid ∧
    index token.Claims "iss" = .str iss ∧
    index token.Claims "aud" = .str aud ∧
    env.FetchJWKS jwksURL = .ok jwks ∧
    (key ∈ jwks.Keys ∧ key.Kid = kid ∧ jwks.FindKey kid = .ok key) ∧
    (token.Method.isRSA = true ∧ env.Verify token key = none) ∧
    "https://login.microsoftonline.com/".toList <+: iss.toList ∧
    aud = env.Getenv "CLIENT_ID"

/-! ## Sample data -/

/-- A store with two users, one of whom has a pending reset code that expires
at instant `1000`. -/
def sampleWorld : World :=
  { users := [{ Email := "asha@bpit.in", Password := "$2a$10$old" },
              { Email := "ravi@bpit.in", Password := "$2a$10$ravi" }],
    resets := [{ Code := "c0ffee", Email := "asha@bpit.in", ExpiresAt := 1000 }],
    outbox := [], tokenCalls := 0 }

/-- A fault-free environment for `VerifyReset` at instant `now`. -/
def sampleVerifyEnv (now : Time) : VerifyEnv :=
  { now := now, resetLookupErr := none,
    GenerateFromPassword := fun p => .ok ("$2a$10$" ++ p),
    userLookupErr := none, saveErr := none, deleteErr := none }

/-- A fault-free environment for `SendEmail` at instant `now`, issuing `code`. -/
def sampleSendEnv (now : Time) (code : String) : SendEnv :=
  { userLookupErr := none, GenerateToken := .ok code,
    GenerateLink := fun t => "https://alumni.bpitindia.com/reset?token=" ++ t,
    now1 := now, now2 := now, hasTable := true, autoMigrateErr := none,
    resetLookupErr := none, saveErr := none, createErr := none, dialErr := none }

def sampleReset : ResetPasswordRequest :=
  { NewPassword := "s3cret", Token := "c0ffee", Email := "asha@bpit.in",
    ConfirmNewPassword := "s3cret" }

/-- The library function `bcrypt.GenerateFromPassword` as far as its error
goes: a password longer than 72 bytes is refused (`ErrPasswordTooLong`);
otherwise the salted hash is produced, here by `hash`. -/
def bcrypt.GenerateFromPassword (hash : String → String) (password : String) :
    Except String String :=
  if password.utf8ByteSize > 72 then .error "bcrypt: password length exceeds 72 bytes"
  else .ok (hash password)

/-- A fault-free environment for `VerifyReset` at instant `now` whose hasher
has bcrypt's 72-byte limit. -/
def bcryptVerifyEnv (now : Time) : VerifyEnv :=
  { now := now, resetLookupErr := none,
    GenerateFromPassword := bcrypt.GenerateFromPassword (fun p => "$2a$10$" ++ p),
    userLookupErr := none, saveErr := none, deleteErr := none }

/-- A password of 73 bytes. -/
def longPassword : String :=
  "aaaaaaaaaaaaaaaaaaaaaaaaaaaaaaaaaaaaaaaaaaaaaaaaaaaaaaaaaaaaaaaaaaaaaaaaa"

/-- An id_token with header `alg RS256, kid k1, typ JWT` and claims
`aud client-1, iss https://login.microsoftonline.com/t1/v2.0, sub alice`. -/
def sampleIdToken : String :=
  "eyJhbGciOiJSUzI1NiIsImtpZCI6ImsxIiwidHlwIjoiSldUIn0." ++
  "eyJhdWQiOiJjbGllbnQtMSIsImlzcyI6Imh0dHBzOi8vbG9naW4ubWljcm9zb2Z0b25saW5lLmNvbS90MS92Mi4wIiwic3ViIjoiYWxpY2UifQ." ++
  "c2ln"

/-- The same token without the `kid` header. -/
def noKidIdToken : String :=
  "eyJhbGciOiJSUzI1NiIsInR5cCI6IkpXVCJ9." ++
  "eyJhdWQiOiJjbGllbnQtMSIsImlzcyI6Imh0dHBzOi8vbG9naW4ubWljcm9zb2Z0b25saW5lLmNvbS90MS92Mi4wIiwic3ViIjoiYWxpY2UifQ." ++
  "c2ln"

/-- The same token with the one-element list `[client-1]` as `aud`. -/
def audListIdToken : String :=
  "eyJhbGciOiJSUzI1NiIsImtpZCI6ImsxIiwidHlwIjoiSldUIn0." ++
  "eyJhdWQiOlsiY2xpZW50LTEiXSwiaXNzIjoiaHR0cHM6Ly9sb2dpbi5taWNyb3NvZnRvbmxpbmUuY29tL3QxL3YyLjAiLCJzdWIiOiJhbGljZSJ9." ++
  "c2ln"

def sampleToken : Token :=
  { Raw := sampleIdToken, Method := .SigningMethodRSA "RS256",
    Header := [("alg", .str "RS256"), ("kid", .str "k1"), ("typ", .str "JWT")],
    Claims := [("aud", .str "client-1"),
               ("iss", .str "https://login.microsoftonline.com/t1/v2.0"),
               ("sub", .str "alice")],
    Signature := "", Valid := false }

def noKidToken : Token :=
  { sampleToken with
    Raw := noKidIdToken, Header := [("alg", .str "RS256"), ("typ", .str "JWT")] }

def audListToken : Token :=
  { sampleToken with
    Raw := audListIdToken,
    Claims := [("aud", .arr [.str "client-1"]),
               ("iss", .str "https://login.microsoftonline.com/t1/v2.0"),
               ("sub", .str "alice")] }

/-- An environment that decodes the three sample tokens, publishes the keys
`k0` and `k1`, and finds tokens valid under `k1` only. -/
def sampleJwtEnv : JwtEnv :=
  { ParseUnverified := fun s =>
      if s = sampleIdToken then .ok sampleToken
      else if s = noKidIdToken then .ok noKidToken
      else if s = audListIdToken then .ok audListToken
      else .error "token contains an invalid number of segments",
    FetchJWKS := fun _ => .ok { Keys := [{ Kid := "k0", Key := "n0" }, { Kid := "k1", Key := "n1" }] },
    Verify := fun _ key => if key.Kid = "k1" then none else some "crypto/rsa: verification error",
    SignedString := fun t key => .ok (t.Method.Alg ++ ":" ++ key),
    Getenv := fun k =>
      if k = "CLIENT_ID" then "client-1" else if k = "JWT_KEY" then "hunter2" else "",
    now := 1700000000 * Second + 123 }

/-! ## Facts about the store operations -/

theorem firstMatch_eq_none {α : Type} (p : α → Bool) (rows : List α) :
    firstMatch p rows = none ↔ ∀ r ∈ rows, p r = false := by
  induction rows with
  | nil => simp [firstMatch]
  | cons a rs ih =>
    by_cases ha : p a = true
    · simp [firstMatch, ha]
    · simp [firstMatch, ha, ih]

theorem firstMatch_some_spec {α : Type} (p : α → Bool) (rows : List α) (i : Nat) (r : α)
    (h : firstMatch p rows = some (i, r)) :
    rows[i]? = some r ∧ p r = true ∧ ∀ x ∈ rows.take i, p x = false := by
  induction rows generalizing i with
  | nil => simp [firstMatch] at h
  | cons a rs ih =>
    by_cases ha : p a = true
    · simp [firstMatch, ha] at h
      obtain ⟨rfl, rfl⟩ := h
      simp [ha]
    · simp only [firstMatch, ha, Bool.false_eq_true, if_false, Option.map_eq_some'] at h
      obtain ⟨⟨j, x⟩, hx, hjx⟩ := h
      simp only [Prod.mk.injEq] at hjx
      obtain ⟨rfl, rfl⟩ := hjx
      obtain ⟨h1, h2, h3⟩ := ih j hx
      refine ⟨by simpa using h1, h2, ?_⟩
      intro y hy
      simp only [List.take_succ_cons, List.mem_cons] at hy
      rcases hy with rfl | hy
      · simpa using ha
      · exact h3 y hy

theorem firstMatch_mem {α : Type} (p : α → Bool) (rows : List α) (i : Nat) (r : α)
    (h : firstMatch p rows = some (i, r)) : r ∈ rows :=
  List.getElem?_mem (firstMatch_some_spec p rows i r h).1

theorem First_notFound_of_none {α : Type} (p : α → Bool) (rows : List α)
    (h : ∀ r ∈ rows, p r = false) : First none p rows = .notFound := by
  have := (firstMatch_eq_none p rows).2 h
  simp [First, this]

theorem VerifyReset_success (env : VerifyEnv) (req : ResetPasswordRequest) (w : World)
    (ridx uidx : Nat) (r : SocietyResetPassword) (u : SocietyUser) (hashed : String)
    (hTok : req.Token ≠ "")
    (hr : First env.resetLookupErr (fun r => r.Code == req.Token && r.Email == req.Email)
      w.resets = .found ridx r)
    (hexp : Time.After env.now r.ExpiresAt = false)
    (hpw : req.NewPassword = req.ConfirmNewPassword)
    (hh : env.GenerateFromPassword req.NewPassword = .ok hashed)
    (hu : First env.userLookupErr (fun u => u.Email == r.Email) w.users = .found uidx u)
    (hs : env.saveErr = none) :
    VerifyReset env (.ok req) w =
      ({ status := StatusOK, body := .text "Password has been reset successfully" },
       afterReset env w ridx uidx u hashed) := by
  have hh2 := hh
  rw [hpw] at hh2
  simp [VerifyReset, hTok, hr, hexp, hpw, hh2, hu, hs, Save, afterReset]

theorem VerifyReset_success_inv (env : VerifyEnv) (req : ResetPasswordRequest) (w : World)
    (h : (VerifyReset env (.ok req) w).1.status = StatusOK) :
    req.Token ≠ "" ∧ ∃ ridx r uidx u hashed,
      First env.resetLookupErr (fun r => r.Code == req.Token && r.Email == req.Email)
        w.resets = .found ridx r ∧
      Time.After env.now r.ExpiresAt = false ∧
      req.NewPassword = req.ConfirmNewPassword ∧
      env.GenerateFromPassword req.NewPassword = .ok hashed ∧
      First env.userLookupErr (fun u => u.Email == r.Email) w.users = .found uidx u ∧
      env.saveErr = none := by
  unfold VerifyReset at h
  simp only at h
  split at h
  · simp [httpError, StatusOK, StatusBadRequest] at h
  rename_i hTok
  split at h
  · simp [httpError, StatusOK, StatusBadRequest] at h
  · simp [httpError, StatusOK, StatusInternalServerError] at h
  rename_i ridx r hr
  split at h
  · simp [httpError, StatusOK, StatusBadRequest] at h
  rename_i hexp
  split at h
  · simp [httpError, StatusOK, StatusBadRequest] at h
  rename_i hpw
  split at h
  · simp [httpError, StatusOK, StatusInternalServerError] at h
  rename_i hashed hh
  split at h
  · simp [httpError, StatusOK, StatusNotFound] at h
  · simp [httpError, StatusOK, StatusInternalServerError] at h
  rename_i uidx u hu
  cases hs : env.saveErr with
  | some e => simp [Save, hs, httpError, StatusOK, StatusInternalServerError] at h
  | none =>
    refine ⟨by simpa using hTok, ridx, r, uidx, u, hashed, hr, by simpa using hexp,
      by simpa using hpw, hh, hu, rfl⟩

theorem First_found_inv {α : Type} (fault : Option String) (p : α → Bool) (rows : List α)
    (i : Nat) (r : α) (h : First fault p rows = .found i r) :
    fault = none ∧ firstMatch p rows = some (i, r) := by
  unfold First at h
  cases fault with
  | some e => simp at h
  | none =>
    cases hm : firstMatch p rows with
    | none => simp [hm] at h
    | some x =>
      obtain ⟨j, y⟩ := x
      simp [hm] at h
      simp [h]

theorem First_notFound_inv {α : Type} (fault : Option String) (p : α → Bool) (rows : List α)
    (h : First fault p rows = .notFound) :
    fault = none ∧ firstMatch p rows = none := by
  unfold First at h
  cases fault with
  | some e => simp at h
  | none =>
    cases hm : firstMatch p rows with
    | none => simp
    | some x => simp [hm] at h

theorem First_found_of {α : Type} (p : α → Bool) (rows : List α) (i : Nat) (r : α)
    (h : firstMatch p rows = some (i, r)) : First none p rows = .found i r := by
  simp [First, h]

/-- Every path of `SendEmail` leaves the users table alone, and leaves the
reset table alone, or overwrites the first record of the address, or appends a
new record. -/
theorem SendEmail_paths (env : SendEnv) (req : EmailRequest) (w : World) :
    (SendEmail env (.ok req) w).2.users = w.users ∧
    ((SendEmail env (.ok req) w).2.resets = w.resets ∧
        (SendEmail env (.ok req) w).1.status ≠ StatusOK ∨
     ∃ code uidx u, env.GenerateToken = .ok code ∧
      firstMatch (fun u => u.Email == req.Email) w.users = some (uidx, u) ∧
      ((SendEmail env (.ok req) w).1.status = StatusOK →
        (SendEmail env (.ok req) w).1.body = sendOKBody req.Email code ∧
        (SendEmail env (.ok req) w).2.outbox = w.outbox ++ [resetMail env req.Email code]) ∧
      ((∃ idx old, firstMatch (fun r => r.Email == req.Email) w.resets = some (idx, old) ∧
          (SendEmail env (.ok req) w).2.resets =
            w.resets.set idx { old with Code := code, ExpiresAt := env.now2 + 5 * Minute }) ∨
       (firstMatch (fun r => r.Email == req.Email) w.resets = none ∧
          (SendEmail env (.ok req) w).2.resets =
            w.resets ++ [{ Code := code, Email := req.Email,
                           ExpiresAt := env.now1 + 5 * Minute }]))) := by
  unfold SendEmail
  simp only
  split
  · simp [httpError, StatusOK, StatusNotFound]
  · simp [httpError, StatusOK, StatusInternalServerError]
  rename_i uidx u hu
  obtain ⟨-, hu⟩ := First_found_inv _ _ _ _ _ hu
  split
  · simp [httpError, StatusOK, StatusInternalServerError]
  rename_i code hcode
  split
  · simp [httpError, StatusOK, StatusInternalServerError]
  split
  · simp [httpError, StatusOK, StatusInternalServerError]
  · rename_i idx old hold
    obtain ⟨-, hold⟩ := First_found_inv _ _ _ _ _ hold
    cases hs : env.saveErr with
    | some e => simp [Save, httpError, StatusOK, StatusInternalServerError]
    | none =>
      refine ⟨?_, Or.inr ⟨code, uidx, u, hcode, hu, ?_, Or.inl ⟨idx, old, hold, ?_⟩⟩⟩
      · cases hd : env.dialErr <;> simp [Save, helper.SendEmail]
      · cases hd : env.dialErr <;>
          simp [Save, helper.SendEmail, httpError, StatusOK, StatusInternalServerError,
            sendOKBody, resetMail]
      · cases hd : env.dialErr <;> simp [Save, helper.SendEmail, Time.Add]
  · rename_i hnone
    obtain ⟨-, hnone⟩ := First_notFound_inv _ _ _ hnone
    cases hs : env.createErr with
    | some e => simp [Create, httpError, StatusOK, StatusInternalServerError]
    | none =>
      refine ⟨?_, Or.inr ⟨code, uidx, u, hcode, hu, ?_, Or.inr ⟨hnone, ?_⟩⟩⟩
      · cases hd : env.dialErr <;> simp [Create, helper.SendEmail]
      · cases hd : env.dialErr <;>
          simp [Create, helper.SendEmail, httpError, StatusOK, StatusInternalServerError,
            sendOKBody, resetMail]
      · cases hd : env.dialErr <;> simp [Create, helper.SendEmail, Time.Add]

/-! ## The one-record-per-address invariant -/

theorem AtMostOnePerEmail.unique {resets : List SocietyResetPassword}
    (h : AtMostOnePerEmail resets) {a b : SocietyResetPassword}
    (ha : a ∈ resets) (hb : b ∈ resets) (hab : a.Email = b.Email) : a = b := by
  by_contra hne
  exact List.Pairwise.forall (fun _ _ hxy => Ne.symm hxy) h ha hb hne hab

/-- Under the invariant at most one record carries a given code and address,
the uniqueness `VerifyReset` relies on to single out "the" matching record. -/
theorem AtMostOnePerEmail.match_unique {resets : List SocietyResetPassword}
    (h : AtMostOnePerEmail resets) (code e : String) :
    ∀ r1 ∈ resets, ∀ r2 ∈ resets,
      r1.Code = code → r1.Email = e → r2.Code = code → r2.Email = e → r1 = r2 :=
  fun _ h1 _ h2 _ he1 _ he2 => h.unique h1 h2 (he1.trans he2.symm)

theorem firstMatch_set_of_first {α : Type} (p q : α → Bool) (l : List α) (i : Nat)
    (old new : α) (h : firstMatch p l = some (i, old)) (hq : q new = true)
    (hpq : ∀ x, q x = true → p x = true) :
    firstMatch q (l.set i new) = some (i, new) := by
  induction l generalizing i with
  | nil => simp [firstMatch] at h
  | cons a rs ih =>
    by_cases ha : p a = true
    · simp [firstMatch, ha] at h
      obtain ⟨rfl, rfl⟩ := h
      simp [firstMatch, hq]
    · simp only [firstMatch, ha, Bool.false_eq_true, if_false, Option.map_eq_some'] at h
      obtain ⟨⟨j, x⟩, hx, hjx⟩ := h
      simp only [Prod.mk.injEq] at hjx
      obtain ⟨rfl, rfl⟩ := hjx
      have hqa : ¬ q a = true := fun hqa => ha (hpq a hqa)
      simp [firstMatch, hqa, ih j hx]

theorem firstMatch_append_of_none {α : Type} (p q : α → Bool) (l : List α) (new : α)
    (h : firstMatch p l = none) (hq : q new = true) (hpq : ∀ x, q x = true → p x = true) :
    firstMatch q (l ++ [new]) = some (l.length, new) := by
  induction l with
  | nil => simp [firstMatch, hq]
  | cons a rs ih =>
    by_cases ha : p a = true
    · simp [firstMatch, ha] at h
    · simp only [firstMatch, ha, Bool.false_eq_true, if_false, Option.map_eq_none'] at h
      have hqa : ¬ q a = true := fun hqa => ha (hpq a hqa)
      simp [firstMatch, hqa, ih h]

/-- Under the invariant, writing back the first record of an address is the
same as rewriting every record of that address. -/
theorem set_first_eq_map {resets : List SocietyResetPassword} (hinv : AtMostOnePerEmail resets)
    (e : String) (f : SocietyResetPassword → SocietyResetPassword) (i : Nat)
    (old : SocietyResetPassword)
    (h : firstMatch (fun r => r.Email == e) resets = some (i, old)) :
    resets.set i (f old) = resets.map (fun r => if r.Email = e then f r else r) := by
  induction resets generalizing i with
  | nil => simp [firstMatch] at h
  | cons a rs ih =>
    unfold AtMostOnePerEmail at hinv
    rw [List.pairwise_cons] at hinv
    by_cases ha : a.Email = e
    · simp [firstMatch, ha] at h
      obtain ⟨rfl, rfl⟩ := h
      simp only [List.set_cons_zero, List.map_cons, ha, if_true, List.cons.injEq, true_and]
      symm
      calc rs.map (fun r => if r.Email = e then f r else r) = rs.map id := by
            apply List.map_congr_left
            intro x hx
            have := hinv.1 x hx
            rw [ha] at this
            simp [Ne.symm this]
        _ = rs := List.map_id rs
    · simp only [firstMatch, beq_iff_eq, ha, if_false, Option.map_eq_some'] at h
      obtain ⟨⟨j, x⟩, hx, hjx⟩ := h
      simp only [Prod.mk.injEq] at hjx
      obtain ⟨rfl, rfl⟩ := hjx
      simp [ha, ih hinv.2 j hx]

theorem AtMostOnePerEmail.map_keep_email {resets : List SocietyResetPassword}
    (hinv : AtMostOnePerEmail resets) (g : SocietyResetPassword → SocietyResetPassword)
    (hg : ∀ r, (g r).Email = r.Email) : AtMostOnePerEmail (resets.map g) := by
  unfold AtMostOnePerEmail at *
  rw [List.pairwise_map]
  exact hinv.imp (fun {a b} hab => by rw [hg a, hg b]; exact hab)

theorem AtMostOnePerEmail.append_new {resets : List SocietyResetPassword}
    (hinv : AtMostOnePerEmail resets) (new : SocietyResetPassword)
    (h : firstMatch (fun r => r.Email == new.Email) resets = none) :
    AtMostOnePerEmail (resets ++ [new]) := by
  unfold AtMostOnePerEmail at *
  rw [List.pairwise_append]
  refine ⟨hinv, List.pairwise_singleton _ _, ?_⟩
  intro a ha b hb
  simp only [List.mem_singleton] at hb
  subst hb
  have := (firstMatch_eq_none _ _).1 h a ha
  simpa using this

theorem AtMostOnePerEmail.eraseIdx_no_email {resets : List SocietyResetPassword}
    (hinv : AtMostOnePerEmail resets) (i : Nat) (r : SocietyResetPassword)
    (h : resets[i]? = some r) : ∀ x ∈ resets.eraseIdx i, x.Email ≠ r.Email := by
  induction resets generalizing i with
  | nil => simp at h
  | cons a rs ih =>
    unfold AtMostOnePerEmail at hinv
    rw [List.pairwise_cons] at hinv
    cases i with
    | zero =>
      simp at h
      subst h
      intro x hx
      simp at hx
      exact Ne.symm (hinv.1 x hx)
    | succ j =>
      simp at h
      intro x hx
      simp at hx
      rcases hx with rfl | hx
      · exact hinv.1 r (List.getElem?_mem h)
      · exact ih hinv.2 j h x hx

theorem set_first_eq_replacePassword (e hashed : String) (users : List SocietyUser) (i : Nat)
    (u : SocietyUser) (h : firstMatch (fun u => u.Email == e) users = some (i, u)) :
    users.set i { u with Password := hashed } = replacePassword e hashed users := by
  induction users generalizing i with
  | nil => simp [firstMatch] at h
  | cons a rs ih =>
    by_cases ha : a.Email = e
    · simp [firstMatch, ha] at h
      obtain ⟨rfl, rfl⟩ := h
      simp [replacePassword, ha]
    · simp only [firstMatch, beq_iff_eq, ha, if_false, Option.map_eq_some'] at h
      obtain ⟨⟨j, x⟩, hx, hjx⟩ := h
      simp only [Prod.mk.injEq] at hjx
      obtain ⟨rfl, rfl⟩ := hjx
      simp [replacePassword, ha, ih j hx]

theorem filter_others_map (e : String) (f : SocietyResetPassword → SocietyResetPassword)
    (hf : ∀ r, (f r).Email = r.Email) (resets : List SocietyResetPassword) :
    (resets.map (fun r => if r.Email = e then f r else r)).filter (fun r => r.Email != e) =
      resets.filter (fun r => r.Email != e) := by
  induction resets with
  | nil => rfl
  | cons a rs ih =>
    by_cases ha : a.Email = e
    · simp [List.filter_cons, ha, hf, ih]
    · simp [List.filter_cons, ha, ih]

theorem replacePassword_mem (e hashed : String) (users : List SocietyUser)
    (h : ∃ u ∈ users, u.Email = e) :
    ∃ u ∈ replacePassword e hashed users, u.Email = e ∧ u.Password = hashed := by
  induction users with
  | nil => simp at h
  | cons a rs ih =>
    by_cases ha : a.Email = e
    · exact ⟨{ a with Password := hashed }, by simp [replacePassword, ha], ha, rfl⟩
    · obtain ⟨u, hu, hue⟩ := h
      simp only [List.mem_cons] at hu
      rcases hu with rfl | hu
      · exact absurd hue ha
      · obtain ⟨v, hv, hve⟩ := ih ⟨u, hu, hue⟩
        exact ⟨v, by simp [replacePassword, ha, hv], hve⟩

/-- What `VerifyReset` does once its query has found a record: an expired
record is answered with 400 "Token has expired" and nothing else is. -/
theorem VerifyReset_found (env : VerifyEnv) (req : ResetPasswordRequest) (w : World)
    (ridx : Nat) (r : SocietyResetPassword) (hTok : req.Token ≠ "")
    (hr : First env.resetLookupErr (fun r => r.Code == req.Token && r.Email == req.Email)
      w.resets = .found ridx r) :
    (Time.After env.now r.ExpiresAt = true →
      VerifyReset env (.ok req) w = (httpError "Token has expired" StatusBadRequest, w)) ∧
    (Time.After env.now r.ExpiresAt = false →
      (VerifyReset env (.ok req) w).1 ≠ httpError "Token has expired" StatusBadRequest) := by
  constructor
  · intro hexp
    simp [VerifyReset, hTok, hr, hexp]
  · intro hexp
    unfold VerifyReset
    simp only [beq_iff_eq, hTok, if_false, hr, hexp, Bool.false_eq_true]
    split
    · simp only [httpError, StatusBadRequest]; decide
    split
    · simp only [httpError, StatusBadRequest, StatusInternalServerError]; decide
    split
    · simp only [httpError, StatusBadRequest, StatusNotFound]; decide
    · simp only [httpError, StatusBadRequest, StatusInternalServerError]; decide
    cases hs : env.saveErr with
    | some e => simp only [Save, httpError, StatusBadRequest, StatusInternalServerError]; decide
    | none => simp only [Save, httpError, StatusBadRequest, StatusOK]; decide

/-- After a 200 answer of `SendEmail` for address `e`, both the query by
address and the query by code and address find the same record: the one just
written, carrying the code of the response. -/
theorem SendEmail_success_lookup (env : SendEnv) (e : String) (w : World)
    (h200 : (SendEmail env (.ok { Email := e }) w).1.status = StatusOK) :
    ∃ code idx r uidx u,
      env.GenerateToken = .ok code ∧
      (SendEmail env (.ok { Email := e }) w).1.body = sendOKBody e code ∧
      firstMatch (fun r => r.Code == code && r.Email == e)
        (SendEmail env (.ok { Email := e }) w).2.resets = some (idx, r) ∧
      firstMatch (fun r => r.Email == e)
        (SendEmail env (.ok { Email := e }) w).2.resets = some (idx, r) ∧
      r.Code = code ∧ r.Email = e ∧
      ((∃ old ∈ w.resets, old.Email = e) → r.ExpiresAt = env.now2 + 5 * Minute) ∧
      ((∀ old ∈ w.resets, old.Email ≠ e) → r.ExpiresAt = env.now1 + 5 * Minute) ∧
      (SendEmail env (.ok { Email := e }) w).2.users = w.users ∧
      firstMatch (fun u => u.Email == e) w.users = some (uidx, u) := by
  obtain ⟨husers, hpaths⟩ := SendEmail_paths env { Email := e } w
  rcases hpaths with ⟨-, hne⟩ | ⟨code, uidx, u, hcode, hu, hresp, hwrite⟩
  · exact absurd h200 hne
  · have hbody := (hresp h200).1
    simp only at hu hwrite hbody
    rcases hwrite with ⟨idx, old, hold, hset⟩ | ⟨hnone, happ⟩
    · have holde : old.Email = e := by
        simpa using (firstMatch_some_spec _ _ _ _ hold).2.1
      refine ⟨code, idx, { old with Code := code, ExpiresAt := env.now2 + 5 * Minute },
        uidx, u, hcode, hbody, ?_, ?_, rfl, holde, fun _ => rfl, fun hall => ?_, husers, hu⟩
      · rw [hset]
        exact firstMatch_set_of_first (fun r => r.Email == e) _ _ _ old _ hold
          (by simp [holde]) (by intro x hx; simp at hx; simp [hx.2])
      · rw [hset]
        exact firstMatch_set_of_first (fun r => r.Email == e) _ _ _ old _ hold
          (by simp [holde]) (fun _ hx => hx)
      · exact absurd holde (hall old (firstMatch_mem _ _ _ _ hold))
    · refine ⟨code, w.resets.length,
        { Code := code, Email := e, ExpiresAt := env.now1 + 5 * Minute },
        uidx, u, hcode, hbody, ?_, ?_, rfl, rfl, fun hex => ?_, fun _ => rfl, husers, hu⟩
      · rw [happ]
        exact firstMatch_append_of_none (fun r => r.Email == e) _ _ _ hnone
          (by simp) (by intro x hx; simp at hx; simp [hx.2])
      · rw [happ]
        exact firstMatch_append_of_none (fun r => r.Email == e) _ _ _ hnone
          (by simp) (fun _ hx => hx)
      · obtain ⟨old, hold, he⟩ := hex
        have := (firstMatch_eq_none _ _).1 hnone old hold
        simp [he] at this

/-- A refused password is answered with 500 "Failed to hash password" and
nothing is written. -/
theorem VerifyReset_hash_failure (env : VerifyEnv) (req : ResetPasswordRequest) (w : World)
    (ridx : Nat) (r : SocietyResetPassword) (err : String)
    (hTok : req.Token ≠ "")
    (hr : First env.resetLookupErr (fun r => r.Code == req.Token && r.Email == req.Email)
      w.resets = .found ridx r)
    (hexp : Time.After env.now r.ExpiresAt = false)
    (hpw : req.NewPassword = req.ConfirmNewPassword)
    (hh : env.GenerateFromPassword req.NewPassword = .error err) :
    VerifyReset env (.ok req) w =
      (httpError "Failed to hash password" StatusInternalServerError, w) := by
  have hh2 := hh
  rw [hpw] at hh2
  simp [VerifyReset, hTok, hr, hexp, hpw, hh2]

/-! ## Claims about `VerifyReset` and `SendEmail` -/

/-- C3: whenever `VerifyReset` answers with a status other than 200, the users
table (hence every stored password) and the reset table are the same after the
call as before it, for every request, store state and environment. -/
theorem VerifyReset_atomic_on_failure (env : VerifyEnv)
    (body : Except String ResetPasswordRequest) (w : World)
    (h : (VerifyReset env body w).1.status ≠ StatusOK) :
    (VerifyReset env body w).2.users = w.users ∧
    (VerifyReset env body w).2.resets = w.resets := by
  unfold VerifyReset at h ⊢
  repeat' split
  all_goals first
    | exact ⟨rfl, rfl⟩
    | (exfalso; simp_all; done)
    | (unfold Save at h ⊢; cases hs : env.saveErr <;> simp_all)

theorem VerifyReset_atomic_on_failure_witness :
    (VerifyReset (sampleVerifyEnv 1001) (.ok sampleReset) sampleWorld).1 =
      httpError "Token has expired" 400 ∧
    (VerifyReset (sampleVerifyEnv 1001) (.ok sampleReset) sampleWorld).2.users =
      sampleWorld.users ∧
    (VerifyReset (sampleVerifyEnv 1001) (.ok sampleReset) sampleWorld).2.resets =
      sampleWorld.resets :=
  ⟨by decide,
   VerifyReset_atomic_on_failure (sampleVerifyEnv 1001) (.ok sampleReset) sampleWorld
     (by decide)⟩

/-- C7: for a request whose e-mail matches no stored user, `SendEmail` answers
404 "Email not found in AlumniProfile" (when the user query itself does not
fail), and on every such call no code is generated, the reset table is not
touched and no mail is sent. -/
theorem SendEmail_unknown_email (env : SendEnv) (req : EmailRequest) (w : World)
    (hno : ∀ u ∈ w.users, u.Email ≠ req.Email) :
    (env.userLookupErr = none →
      (SendEmail env (.ok req) w).1 =
        httpError "Email not found in AlumniProfile" StatusNotFound) ∧
    (SendEmail env (.ok req) w).2.tokenCalls = w.tokenCalls ∧
    (SendEmail env (.ok req) w).2.resets = w.resets ∧
    (SendEmail env (.ok req) w).2.outbox = w.outbox := by
  have hnone : firstMatch (fun u : SocietyUser => u.Email == req.Email) w.users = none := by
    rw [firstMatch_eq_none]
    intro u hu
    simpa using hno u hu
  cases hf : env.userLookupErr with
  | none => simp [SendEmail, First, hf, hnone]
  | some e => simp [SendEmail, First, hf]

theorem SendEmail_unknown_email_witness :
    (∀ u ∈ sampleWorld.users, u.Email ≠ "nobody@bpit.in") ∧
    (SendEmail (sampleSendEnv 0 "c0de") (.ok { Email := "nobody@bpit.in" }) sampleWorld).1 =
        httpError "Email not found in AlumniProfile" 404 ∧
    (SendEmail (sampleSendEnv 0 "c0de") (.ok { Email := "nobody@bpit.in" }) sampleWorld).2 =
        sampleWorld :=
  have hno : ∀ u ∈ sampleWorld.users, u.Email ≠ "nobody@bpit.in" := by decide
  have h := SendEmail_unknown_email (sampleSendEnv 0 "c0de") { Email := "nobody@bpit.in" }
    sampleWorld hno
  ⟨hno, h.1 rfl, by decide⟩

/-- C2: when the store queries, the hash and the save do not fail, `VerifyReset`
answers 200 and replaces the stored password of the user with the record's
e-mail by the bcrypt hash of `NewPassword` exactly when the token is non-empty,
a reset record has that code and the request's e-mail, the current time is not
after that record's `ExpiresAt`, the two passwords agree and a user with that
e-mail exists.  "That record" is well defined: at most one record carries the
request's code and e-mail (`huniq`), which holds in particular when the table
has at most one record per address. -/
theorem VerifyReset_ok_iff (env : VerifyEnv) (req : ResetPasswordRequest) (w : World)
    (hashed : String)
    (huniq : ∀ r1 ∈ w.resets, ∀ r2 ∈ w.resets,
      r1.Code = req.Token → r1.Email = req.Email →
      r2.Code = req.Token → r2.Email = req.Email → r1 = r2)
    (hq1 : env.resetLookupErr = none) (hq2 : env.userLookupErr = none)
    (hsave : env.saveErr = none)
    (hhash : env.GenerateFromPassword req.NewPassword = .ok hashed) :
    ((VerifyReset env (.ok req) w).1.status = StatusOK ∧
      (VerifyReset env (.ok req) w).2.users = replacePassword req.Email hashed w.users) ↔
    (req.Token ≠ "" ∧
      ∃ r ∈ w.resets, r.Code = req.Token ∧ r.Email = req.Email ∧
        Time.After env.now r.ExpiresAt = false ∧
        req.NewPassword = req.ConfirmNewPassword ∧
        ∃ u ∈ w.users, u.Email = r.Email) := by
  constructor
  · rintro ⟨h200, -⟩
    obtain ⟨hTok, ridx, r, uidx, u, hashed2, hr, hexp, hpw, -, hu, -⟩ :=
      VerifyReset_success_inv env req w h200
    obtain ⟨-, hr⟩ := First_found_inv _ _ _ _ _ hr
    obtain ⟨-, hu⟩ := First_found_inv _ _ _ _ _ hu
    have hrp := (firstMatch_some_spec _ _ _ _ hr).2.1
    have hup := (firstMatch_some_spec _ _ _ _ hu).2.1
    simp only [Bool.and_eq_true, beq_iff_eq] at hrp hup
    exact ⟨hTok, r, firstMatch_mem _ _ _ _ hr, hrp.1, hrp.2, hexp, hpw, u,
      firstMatch_mem _ _ _ _ hu, hup⟩
  · rintro ⟨hTok, r, hr, hcode, hemail, hexp, hpw, u, hu, hue⟩
    -- the query finds a record, and by the invariant it is `r`
    cases hfm : firstMatch (fun r => r.Code == req.Token && r.Email == req.Email) w.resets with
    | none =>
      have := (firstMatch_eq_none _ _).1 hfm r hr
      simp [hcode, hemail] at this
    | some x =>
      obtain ⟨ridx, r2⟩ := x
      have hr2p := (firstMatch_some_spec _ _ _ _ hfm).2.1
      simp only [Bool.and_eq_true, beq_iff_eq] at hr2p
      have hr2 : r2 = r :=
        huniq r2 (firstMatch_mem _ _ _ _ hfm) r hr hr2p.1 hr2p.2 hcode hemail
      subst hr2
      cases hfu : firstMatch (fun u : SocietyUser => u.Email == r2.Email) w.users with
      | none =>
        have := (firstMatch_eq_none _ _).1 hfu u hu
        simp [hue] at this
      | some y =>
        obtain ⟨uidx, u2⟩ := y
        have hres := VerifyReset_success env req w ridx uidx r2 u2 hashed hTok
          (by rw [hq1]; exact First_found_of _ _ _ _ hfm) hexp hpw hhash
          (by rw [hq2]; exact First_found_of _ _ _ _ hfu) hsave
        rw [hres]
        refine ⟨rfl, ?_⟩
        simp only [afterReset]
        rw [← hemail]
        exact set_first_eq_replacePassword _ _ _ _ _ hfu

theorem VerifyReset_ok_iff_witness :
    (∀ r1 ∈ sampleWorld.resets, ∀ r2 ∈ sampleWorld.resets,
      r1.Code = sampleReset.Token → r1.Email = sampleReset.Email →
      r2.Code = sampleReset.Token → r2.Email = sampleReset.Email → r1 = r2) ∧
    (sampleVerifyEnv 1000).GenerateFromPassword sampleReset.NewPassword = .ok "$2a$10$s3cret" ∧
    (VerifyReset (sampleVerifyEnv 1000) (.ok sampleReset) sampleWorld).1.status = 200 ∧
    (VerifyReset (sampleVerifyEnv 1000) (.ok sampleReset) sampleWorld).2.users =
      [{ Email := "asha@bpit.in", Password := "$2a$10$s3cret" },
       { Email := "ravi@bpit.in", Password := "$2a$10$ravi" }] :=
  have huniq : ∀ r1 ∈ sampleWorld.resets, ∀ r2 ∈ sampleWorld.resets,
      r1.Code = sampleReset.Token → r1.Email = sampleReset.Email →
      r2.Code = sampleReset.Token → r2.Email = sampleReset.Email → r1 = r2 := by
    decide
  have h := VerifyReset_ok_iff (sampleVerifyEnv 1000) sampleReset sampleWorld "$2a$10$s3cret"
    huniq rfl rfl rfl rfl
  have h2 := h.2 ⟨by decide, { Code := "c0ffee", Email := "asha@bpit.in", ExpiresAt := 1000 },
    by decide, rfl, rfl, by decide, rfl,
    { Email := "asha@bpit.in", Password := "$2a$10$old" }, by decide, rfl⟩
  ⟨huniq, rfl, h2.1, h2.2⟩

/-- C6: from a reset table with at most one record per address, every path of
`SendEmail` for address `e` leaves a table with at most one record per address
and leaves the records of other addresses unchanged; on a 200 answer, when a
record of `e` existed its code and `ExpiresAt` are overwritten with the new
code and expiry (its e-mail stays), and when none existed exactly one record
(new code, `e`, now + 5 minutes) is added. -/
theorem SendEmail_one_record_per_email (env : SendEnv) (req : EmailRequest) (w : World)
    (hinv : AtMostOnePerEmail w.resets) :
    AtMostOnePerEmail (SendEmail env (.ok req) w).2.resets ∧
    (SendEmail env (.ok req) w).2.resets.filter (fun r => r.Email != req.Email) =
      w.resets.filter (fun r => r.Email != req.Email) ∧
    ((SendEmail env (.ok req) w).1.status = StatusOK →
      ∃ code, env.GenerateToken = .ok code ∧
        ((∃ old ∈ w.resets, old.Email = req.Email) →
          (SendEmail env (.ok req) w).2.resets =
            w.resets.map (fun r =>
              if r.Email = req.Email then
                { r with Code := code, ExpiresAt := env.now2 + 5 * Minute }
              else r)) ∧
        ((∀ old ∈ w.resets, old.Email ≠ req.Email) →
          (SendEmail env (.ok req) w).2.resets =
            w.resets ++ [{ Code := code, Email := req.Email,
                           ExpiresAt := env.now1 + 5 * Minute }])) := by
  obtain ⟨-, hpaths⟩ := SendEmail_paths env req w
  rcases hpaths with ⟨hsame, hne⟩ | ⟨code, uidx, u, hcode, -, -, hwrite⟩
  · rw [hsame]
    exact ⟨hinv, rfl, fun h => absurd h hne⟩
  · rcases hwrite with ⟨idx, old, hold, hset⟩ | ⟨hnone, happ⟩
    · have hmap := set_first_eq_map hinv req.Email
        (fun r => { r with Code := code, ExpiresAt := env.now2 + 5 * Minute }) idx old hold
      rw [hset, hmap]
      refine ⟨?_, ?_, fun _ => ⟨code, hcode, fun _ => rfl, fun hall => ?_⟩⟩
      · apply hinv.map_keep_email
        intro r
        split <;> rfl
      · exact filter_others_map req.Email
          (fun r => { r with Code := code, ExpiresAt := env.now2 + 5 * Minute })
          (fun _ => rfl) w.resets
      · have hmem := firstMatch_mem _ _ _ _ hold
        have hp := (firstMatch_some_spec _ _ _ _ hold).2.1
        exact absurd (by simpa using hp) (hall old hmem)
    · rw [happ]
      refine ⟨hinv.append_new _ hnone, ?_, fun _ => ⟨code, hcode, fun hex => ?_, fun _ => rfl⟩⟩
      · simp [List.filter_append]
      · obtain ⟨old, hold, he⟩ := hex
        have := (firstMatch_eq_none _ _).1 hnone old hold
        simp [he] at this

theorem SendEmail_one_record_per_email_witness :
    AtMostOnePerEmail sampleWorld.resets ∧
    (SendEmail (sampleSendEnv 2000 "beef01") (.ok { Email := "asha@bpit.in" })
      sampleWorld).2.resets =
      [{ Code := "beef01", Email := "asha@bpit.in", ExpiresAt := 2000 + 5 * Minute }] ∧
    AtMostOnePerEmail (SendEmail (sampleSendEnv 2000 "beef01") (.ok { Email := "asha@bpit.in" })
      sampleWorld).2.resets :=
  ⟨by decide, by decide,
   (SendEmail_one_record_per_email (sampleSendEnv 2000 "beef01") { Email := "asha@bpit.in" }
     sampleWorld (by decide)).1⟩

/-- C4: a 200 answer of `SendEmail` for address `e` leaves a record with the
issued code, the address `e` and `ExpiresAt = t + 5 minutes`, where `t` is the
clock reading of the path taken (line 82 when a record is updated, line 62
when one is created; both are the time of the call).  A following
`VerifyReset` at time `now` with that (non-empty) code and address, whose
query does not fail, answers 400 "Token has expired" if and only if `now` is
strictly later than `t + 5 minutes`; at `now = t + 5 minutes` exactly, with
matching passwords and no hash or store failure, it answers 200. -/
theorem reset_code_valid_five_minutes (senv : SendEnv) (e : String) (w : World)
    (h200 : (SendEmail senv (.ok { Email := e }) w).1.status = StatusOK) :
    ∃ code t r,
      senv.GenerateToken = .ok code ∧
      ((∃ old ∈ w.resets, old.Email = e) → t = senv.now2) ∧
      ((∀ old ∈ w.resets, old.Email ≠ e) → t = senv.now1) ∧
      r ∈ (SendEmail senv (.ok { Email := e }) w).2.resets ∧
      r.Code = code ∧ r.Email = e ∧ r.ExpiresAt = t + 5 * Minute ∧
      ∀ (venv : VerifyEnv) (req : ResetPasswordRequest),
        req.Token = code → req.Email = e → code ≠ "" → venv.resetLookupErr = none →
        ((VerifyReset venv (.ok req) (SendEmail senv (.ok { Email := e }) w).2).1 =
            httpError "Token has expired" StatusBadRequest ↔ t + 5 * Minute < venv.now) ∧
        (venv.now = t + 5 * Minute → req.NewPassword = req.ConfirmNewPassword →
          (∃ hashed, venv.GenerateFromPassword req.NewPassword = .ok hashed) →
          venv.userLookupErr = none → venv.saveErr = none →
          (VerifyReset venv (.ok req) (SendEmail senv (.ok { Email := e }) w).2).1.status =
            StatusOK) := by
  obtain ⟨code, idx, r, uidx, u, hcode, -, hq, -, hrc, hre, hupd, hnew, husers, hu⟩ :=
    SendEmail_success_lookup senv e w h200
  refine ⟨code, r.ExpiresAt - 5 * Minute, r, hcode, ?_, ?_, firstMatch_mem _ _ _ _ hq,
    hrc, hre, by ring, ?_⟩
  · intro hex
    rw [hupd hex]; ring
  · intro hall
    rw [hnew hall]; ring
  · intro venv req htok hemail hne hfault
    have hTok : req.Token ≠ "" := by rw [htok]; exact hne
    have hfound : First venv.resetLookupErr
        (fun r => r.Code == req.Token && r.Email == req.Email)
        (SendEmail senv (.ok { Email := e }) w).2.resets = .found idx r := by
      rw [hfault, htok, hemail]
      exact First_found_of _ _ _ _ hq
    obtain ⟨hexpired, hfresh⟩ := VerifyReset_found venv req _ idx r hTok hfound
    have hsub : r.ExpiresAt - 5 * Minute + 5 * Minute = r.ExpiresAt := by ring
    rw [hsub]
    refine ⟨⟨fun hresp => ?_, fun hlt => ?_⟩, ?_⟩
    · by_contra hnlt
      exact hfresh (by simpa [Time.After] using hnlt) hresp
    · rw [hexpired (by simpa [Time.After] using hlt)]
    · rintro hnow hpw ⟨hashed, hhash⟩ hfu hsave
      have hu2 : First venv.userLookupErr (fun u => u.Email == r.Email)
          (SendEmail senv (.ok { Email := e }) w).2.users = .found uidx u := by
        rw [hfu, husers, hre]
        exact First_found_of _ _ _ _ hu
      rw [VerifyReset_success venv req _ idx uidx r u hashed hTok hfound
        (by simp [Time.After, hnow]) hpw hhash hu2 hsave]

theorem reset_code_valid_five_minutes_witness :
    (SendEmail (sampleSendEnv 2000 "beef01") (.ok { Email := "asha@bpit.in" })
      sampleWorld).1.status = 200 ∧
    ∃ code t r,
      (sampleSendEnv 2000 "beef01").GenerateToken = .ok code ∧
      ((∃ old ∈ sampleWorld.resets, old.Email = "asha@bpit.in") →
        t = (sampleSendEnv 2000 "beef01").now2) ∧
      ((∀ old ∈ sampleWorld.resets, old.Email ≠ "asha@bpit.in") →
        t = (sampleSendEnv 2000 "beef01").now1) ∧
      r ∈ (SendEmail (sampleSendEnv 2000 "beef01") (.ok { Email := "asha@bpit.in" })
        sampleWorld).2.resets ∧
      r.Code = code ∧ r.Email = "asha@bpit.in" ∧ r.ExpiresAt = t + 5 * Minute ∧
      ∀ (venv : VerifyEnv) (req : ResetPasswordRequest),
        req.Token = code → req.Email = "asha@bpit.in" → code ≠ "" →
        venv.resetLookupErr = none →
        ((VerifyReset venv (.ok req) (SendEmail (sampleSendEnv 2000 "beef01")
            (.ok { Email := "asha@bpit.in" }) sampleWorld).2).1 =
            httpError "Token has expired" StatusBadRequest ↔ t + 5 * Minute < venv.now) ∧
        (venv.now = t + 5 * Minute → req.NewPassword = req.ConfirmNewPassword →
          (∃ hashed, venv.GenerateFromPassword req.NewPassword = .ok hashed) →
          venv.userLookupErr = none → venv.saveErr = none →
          (VerifyReset venv (.ok req) (SendEmail (sampleSendEnv 2000 "beef01")
            (.ok { Email := "asha@bpit.in" }) sampleWorld).2).1.status = StatusOK) :=
  ⟨by decide,
   reset_code_valid_five_minutes (sampleSendEnv 2000 "beef01") "asha@bpit.in" sampleWorld
     (by decide)⟩

/-- The expiry boundary evaluated on the sample store: the code issued at
instant 2000 is accepted at 2000 + 5 minutes and refused one nanosecond later. -/
theorem reset_code_boundary_sample :
    (VerifyReset (sampleVerifyEnv (2000 + 5 * Minute))
      (.ok { sampleReset with Token := "beef01" })
      (SendEmail (sampleSendEnv 2000 "beef01") (.ok { Email := "asha@bpit.in" })
        sampleWorld).2).1.status = 200 ∧
    (VerifyReset (sampleVerifyEnv (2000 + 5 * Minute + 1))
      (.ok { sampleReset with Token := "beef01" })
      (SendEmail (sampleSendEnv 2000 "beef01") (.ok { Email := "asha@bpit.in" })
        sampleWorld).2).1 = httpError "Token has expired" 400 := by
  decide

/-- C8: when `SendEmail` for address `e` answers 200, the response body
carries a `token` field equal to the code of `e`'s reset record in the store.
A following `VerifyReset` with that (non-empty) token, `Email = e` and
`NewPassword = ConfirmNewPassword`, made within the five minutes and without a
store failure, answers 200 and sets the stored password of `e`'s user to the
hash of the new password whenever bcrypt hashes that password; when bcrypt
refuses it, the answer is 500 "Failed to hash password" and nothing changes. -/
theorem reset_without_mailbox (senv : SendEnv) (e : String) (w : World)
    (h200 : (SendEmail senv (.ok { Email := e }) w).1.status = StatusOK) :
    ∃ code idx r,
      (SendEmail senv (.ok { Email := e }) w).1.body =
        .json [("email", e), ("message", "Email received for reset Password"),
               ("token", code)] ∧
      firstMatch (fun r => r.Email == e)
        (SendEmail senv (.ok { Email := e }) w).2.resets = some (idx, r) ∧
      r.Code = code ∧
      ∀ (venv : VerifyEnv) (password : String),
        code ≠ "" → senv.now1 ≤ senv.now2 → venv.now ≤ senv.now1 + 5 * Minute →
        venv.resetLookupErr = none → venv.userLookupErr = none → venv.saveErr = none →
        (∀ hashed : String, venv.GenerateFromPassword password = .ok hashed →
          (VerifyReset venv
            (.ok { NewPassword := password, Token := code, Email := e,
                   ConfirmNewPassword := password })
            (SendEmail senv (.ok { Email := e }) w).2).1.status = StatusOK ∧
          (VerifyReset venv
            (.ok { NewPassword := password, Token := code, Email := e,
                   ConfirmNewPassword := password })
            (SendEmail senv (.ok { Email := e }) w).2).2.users =
              replacePassword e hashed w.users ∧
          ∃ u ∈ (VerifyReset venv
            (.ok { NewPassword := password, Token := code, Email := e,
                   ConfirmNewPassword := password })
            (SendEmail senv (.ok { Email := e }) w).2).2.users,
            u.Email = e ∧ u.Password = hashed) ∧
        (∀ err : String, venv.GenerateFromPassword password = .error err →
          VerifyReset venv
            (.ok { NewPassword := password, Token := code, Email := e,
                   ConfirmNewPassword := password })
            (SendEmail senv (.ok { Email := e }) w).2 =
            (httpError "Failed to hash password" StatusInternalServerError,
             (SendEmail senv (.ok { Email := e }) w).2)) := by
  obtain ⟨code, idx, r, uidx, u, -, hbody, hq, hqe, hrc, hre, hupd, hnew, husers, hu⟩ :=
    SendEmail_success_lookup senv e w h200
  refine ⟨code, idx, r, hbody, hqe, hrc, ?_⟩
  intro venv password hne hmono hnow hf1 hf2 hsave
  have hexp : senv.now1 + 5 * Minute ≤ r.ExpiresAt := by
    by_cases hex : ∃ old ∈ w.resets, old.Email = e
    · rw [hupd hex]; linarith
    · rw [hnew (by
        intro old hold he
        exact hex ⟨old, hold, he⟩)]
  have hfresh : Time.After venv.now r.ExpiresAt = false := by
    simp only [Time.After, decide_eq_false_iff_not, not_lt]; linarith
  have hfound : First venv.resetLookupErr
      (fun r => r.Code == code && r.Email == e)
      (SendEmail senv (.ok { Email := e }) w).2.resets = .found idx r := by
    rw [hf1]
    exact First_found_of _ _ _ _ hq
  have hu2 : First venv.userLookupErr (fun u => u.Email == r.Email)
      (SendEmail senv (.ok { Email := e }) w).2.users = .found uidx u := by
    rw [hf2, husers, hre]
    exact First_found_of _ _ _ _ hu
  constructor
  · intro hashed hhash
    have hres := VerifyReset_success venv
      { NewPassword := password, Token := code, Email := e, ConfirmNewPassword := password }
      (SendEmail senv (.ok { Email := e }) w).2 idx uidx r u hashed hne hfound
      hfresh rfl hhash hu2 hsave
    have husers2 : (afterReset venv (SendEmail senv (.ok { Email := e }) w).2 idx uidx u
        hashed).users = replacePassword e hashed w.users := by
      simp only [afterReset, husers]
      exact set_first_eq_replacePassword _ _ _ _ _ hu
    rw [hres]
    refine ⟨rfl, husers2, ?_⟩
    simp only [husers2]
    exact replacePassword_mem e hashed w.users ⟨u, firstMatch_mem _ _ _ _ hu, by
      simpa using (firstMatch_some_spec _ _ _ _ hu).2.1⟩
  · intro err hhash
    exact VerifyReset_hash_failure venv
      { NewPassword := password, Token := code, Email := e, ConfirmNewPassword := password }
      (SendEmail senv (.ok { Email := e }) w).2 idx r err hne hfound hfresh rfl hhash

theorem reset_without_mailbox_witness :
    (SendEmail (sampleSendEnv 2000 "beef01") (.ok { Email := "ravi@bpit.in" })
      sampleWorld).1 =
      { status := 200,
        body := .json [("email", "ravi@bpit.in"),
                       ("message", "Email received for reset Password"),
                       ("token", "beef01")] } ∧
    (VerifyReset (bcryptVerifyEnv 2001)
      (.ok { NewPassword := "n3w", Token := "beef01", Email := "ravi@bpit.in",
             ConfirmNewPassword := "n3w" })
      (SendEmail (sampleSendEnv 2000 "beef01") (.ok { Email := "ravi@bpit.in" })
        sampleWorld).2).1.status = 200 ∧
    (VerifyReset (bcryptVerifyEnv 2001)
      (.ok { NewPassword := "n3w", Token := "beef01", Email := "ravi@bpit.in",
             ConfirmNewPassword := "n3w" })
      (SendEmail (sampleSendEnv 2000 "beef01") (.ok { Email := "ravi@bpit.in" })
        sampleWorld).2).2.users =
      [{ Email := "asha@bpit.in", Password := "$2a$10$old" },
       { Email := "ravi@bpit.in", Password := "$2a$10$n3w" }] ∧
    ∃ code idx r,
      (SendEmail (sampleSendEnv 2000 "beef01") (.ok { Email := "ravi@bpit.in" })
        sampleWorld).1.body =
        .json [("email", "ravi@bpit.in"), ("message", "Email received for reset Password"),
               ("token", code)] ∧
      firstMatch (fun r => r.Email == "ravi@bpit.in")
        (SendEmail (sampleSendEnv 2000 "beef01") (.ok { Email := "ravi@bpit.in" })
          sampleWorld).2.resets = some (idx, r) ∧
      r.Code = code :=
  have h := reset_without_mailbox (sampleSendEnv 2000 "beef01") "ravi@bpit.in" sampleWorld
    (by decide)
  ⟨by decide, by decide, by decide,
   h.elim fun code hc => hc.elim fun idx hi => hi.elim fun r hr =>
     ⟨code, idx, r, hr.1, hr.2.1, hr.2.2.1⟩⟩

/-- The reset is not completed for every password: on the sample store `SendEmail` for a stored user's address answers 200 with the token
`beef01`, and the immediately following `VerifyReset` with that token, that
address and the 73-byte password as both `NewPassword` and
`ConfirmNewPassword` answers 500 "Failed to hash password", leaving the stored
passwords as they were. -/
theorem reset_without_mailbox_long_password :
    (∃ u ∈ sampleWorld.users, u.Email = "ravi@bpit.in") ∧
    (SendEmail (sampleSendEnv 2000 "beef01") (.ok { Email := "ravi@bpit.in" })
      sampleWorld).1 =
      { status := 200,
        body := .json [("email", "ravi@bpit.in"),
                       ("message", "Email received for reset Password"),
                       ("token", "beef01")] } ∧
    longPassword.utf8ByteSize = 73 ∧
    (VerifyReset (bcryptVerifyEnv 2000)
      (.ok { NewPassword := longPassword, Token := "beef01", Email := "ravi@bpit.in",
             ConfirmNewPassword := longPassword })
      (SendEmail (sampleSendEnv 2000 "beef01") (.ok { Email := "ravi@bpit.in" })
        sampleWorld).2).1 = httpError "Failed to hash password" 500 ∧
    ¬ (VerifyReset (bcryptVerifyEnv 2000)
      (.ok { NewPassword := longPassword, Token := "beef01", Email := "ravi@bpit.in",
             ConfirmNewPassword := longPassword })
      (SendEmail (sampleSendEnv 2000 "beef01") (.ok { Email := "ravi@bpit.in" })
        sampleWorld).2).1.status = 200 ∧
    (VerifyReset (bcryptVerifyEnv 2000)
      (.ok { NewPassword := longPassword, Token := "beef01", Email := "ravi@bpit.in",
             ConfirmNewPassword := longPassword })
      (SendEmail (sampleSendEnv 2000 "beef01") (.ok { Email := "ravi@bpit.in" })
        sampleWorld).2).2.users = sampleWorld.users := by
  refine ⟨by decide, by decide, by decide, by decide, by decide, by decide⟩

/-- C9: from a reset table with at most one record per address, after a
`VerifyReset` that answers 200 and whose delete succeeds, the record it
matched is no longer in the store, and repeating the same request (the query
not failing) answers 400 "Invalid or expired token" and leaves the whole store,
passwords included, as it is. -/
theorem reset_code_single_use (env : VerifyEnv) (req : ResetPasswordRequest) (w : World)
    (hinv : AtMostOnePerEmail w.resets)
    (h200 : (VerifyReset env (.ok req) w).1.status = StatusOK)
    (hdel : env.deleteErr = none) :
    (∃ r ∈ w.resets, r.Code = req.Token ∧ r.Email = req.Email ∧
      r ∉ (VerifyReset env (.ok req) w).2.resets) ∧
    ∀ env2 : VerifyEnv, env2.resetLookupErr = none →
      VerifyReset env2 (.ok req) (VerifyReset env (.ok req) w).2 =
        (httpError "Invalid or expired token" StatusBadRequest,
         (VerifyReset env (.ok req) w).2) := by
  obtain ⟨hTok, ridx, r, uidx, u, hashed, hr, hexp, hpw, hhash, hu, hsave⟩ :=
    VerifyReset_success_inv env req w h200
  have hres := VerifyReset_success env req w ridx uidx r u hashed hTok hr hexp hpw hhash hu
    hsave
  obtain ⟨-, hfm⟩ := First_found_inv _ _ _ _ _ hr
  obtain ⟨hget, hp, -⟩ := firstMatch_some_spec _ _ _ _ hfm
  simp only [Bool.and_eq_true, beq_iff_eq] at hp
  have hresets : (VerifyReset env (.ok req) w).2.resets = w.resets.eraseIdx ridx := by
    rw [hres]
    simp [afterReset, Delete, hdel]
  have hgone := hinv.eraseIdx_no_email ridx r hget
  rw [← hresets] at hgone
  refine ⟨⟨r, firstMatch_mem _ _ _ _ hfm, hp.1, hp.2, fun hmem => hgone r hmem rfl⟩, ?_⟩
  intro env2 hf
  have hnone : firstMatch (fun r => r.Code == req.Token && r.Email == req.Email)
      (VerifyReset env (.ok req) w).2.resets = none := by
    rw [firstMatch_eq_none]
    intro x hx
    have := hgone x hx
    rw [hp.2] at this
    simp [this]
  generalize (VerifyReset env (.ok req) w).2 = w2 at hnone ⊢
  simp [VerifyReset, hTok, hf, First, hnone]

theorem reset_code_single_use_witness :
    AtMostOnePerEmail sampleWorld.resets ∧
    (VerifyReset (sampleVerifyEnv 1000) (.ok sampleReset) sampleWorld).1.status = 200 ∧
    (VerifyReset (sampleVerifyEnv 1000) (.ok sampleReset) sampleWorld).2.resets = [] ∧
    VerifyReset (sampleVerifyEnv 1000) (.ok sampleReset)
        (VerifyReset (sampleVerifyEnv 1000) (.ok sampleReset) sampleWorld).2 =
      (httpError "Invalid or expired token" 400,
       (VerifyReset (sampleVerifyEnv 1000) (.ok sampleReset) sampleWorld).2) :=
  ⟨by decide, by decide, by decide,
   (reset_code_single_use (sampleVerifyEnv 1000) sampleReset sampleWorld (by decide)
     (by decide) rfl).2 (sampleVerifyEnv 1000) rfl⟩

/-! ## Facts about `ValidateTokenAndGenerateJWT` -/

theorem Value.assertString_eq_some (v : Value) (s : String) :
    v.assertString = some s ↔ v = .str s := by
  cases v <;> simp [Value.assertString]

theorem JWKS.FindKey_ok (jwks : JWKS) (kid : String) (key : JWK)
    (h : jwks.FindKey kid = .ok key) : key ∈ jwks.Keys ∧ key.Kid = kid := by
  unfold JWKS.FindKey at h
  split at h
  · rename_i k hk
    simp only [Except.ok.injEq] at h
    subst h
    exact ⟨List.mem_of_find?_eq_some hk, by simpa using List.find?_some hk⟩
  · simp at h

theorem jwt.Parse_inv (env : JwtEnv) (tokenString : String)
    (keyFunc : Token → Except String JWK) (parsed : Option Token)
    (h : jwt.Parse env tokenString keyFunc = (parsed, none)) :
    ∃ token key, env.ParseUnverified tokenString = .ok token ∧ keyFunc token = .ok key ∧
      env.Verify token key = none ∧ parsed = some { token with Valid := true } := by
  unfold jwt.Parse at h
  split at h
  · simp at h
  rename_i token htoken
  split at h
  · simp at h
  rename_i key hkey
  split at h
  · simp at h
  rename_i hverify
  simp only [Prod.mk.injEq, and_true] at h
  exact ⟨token, key, htoken, hkey, hverify, h.symm⟩

/-- Everything that holds when the function returns a nil error. -/
theorem ValidateToken_success_inv (env : JwtEnv) (idToken : String) (tr : List Call)
    (s : String)
    (h : ValidateTokenAndGenerateJWT env idToken = (tr, .returned s none)) :
    ∃ token kid iss aud jwks key,
      env.ParseUnverified idToken = .ok token ∧
      index token.Header "kid" = .str kid ∧
      index token.Claims "iss" = .str iss ∧
      index token.Claims "aud" = .str aud ∧
      env.FetchJWKS jwksURL = .ok jwks ∧
      jwks.FindKey kid = .ok key ∧
      token.Method.isRSA = true ∧
      env.Verify token key = none ∧
      strings.HasPrefix iss "https://login.microsoftonline.com/" = true ∧
      aud = env.Getenv "CLIENT_ID" ∧
      env.SignedString (mintedToken env token) (env.Getenv "JWT_KEY") = .ok s := by
  unfold ValidateTokenAndGenerateJWT at h
  split at h
  · simp at h
  rename_i token htoken
  simp only at h
  split at h
  · simp at h
  rename_i kid hkid
  split at h
  · simp at h
  rename_i iss hiss
  split at h
  · simp at h
  rename_i aud haud
  split at h
  · simp at h
  rename_i jwks hjwks
  split at h
  · simp at h
  rename_i key hkey
  split at h
  · simp at h
  · simp at h
  rename_i parsedToken hparsed
  obtain ⟨token2, key2, htoken2, hkf, hverify, -⟩ := jwt.Parse_inv _ _ _ _ hparsed
  rw [htoken] at htoken2
  simp only [Except.ok.injEq] at htoken2
  subst htoken2
  split at h
  · simp at h
  split at h
  · simp at h
  rename_i hchecks
  split at h
  · simp at h
  rename_i jwtString hsigned
  simp only [Prod.mk.injEq, Outcome.returned.injEq, and_true] at h
  have hrsa : token.Method.isRSA = true := by
    by_contra hn
    simp [hn] at hkf
  simp only [hrsa, if_true, Except.ok.injEq] at hkf
  subst hkf
  simp only [Bool.or_eq_true, Bool.not_eq_true', bne_iff_ne, ne_eq, not_or,
    Bool.not_eq_false, Decidable.not_not] at hchecks
  refine ⟨token, kid, iss, aud, jwks, key, htoken, (Value.assertString_eq_some _ _).1 hkid,
    (Value.assertString_eq_some _ _).1 hiss, (Value.assertString_eq_some _ _).1 haud,
    hjwks, hkey, hrsa, hverify, hchecks.1, hchecks.2, ?_⟩
  rw [← h.2]
  exact hsigned

/-- Every call ends in a panic, in an error with the empty string, or in a
token with a nil error. -/
theorem ValidateToken_outcomes (env : JwtEnv) (idToken : String) :
    (ValidateTokenAndGenerateJWT env idToken).2 = .panicked ∨
    (∃ err, (ValidateTokenAndGenerateJWT env idToken).2 = .returned "" (some err)) ∨
    (∃ s, (ValidateTokenAndGenerateJWT env idToken).2 = .returned s none) := by
  unfold ValidateTokenAndGenerateJWT
  cases h1 : env.ParseUnverified idToken with
  | error e => simp
  | ok token =>
    simp only
    cases h2 : (index token.Header "kid").assertString with
    | none => simp
    | some kid =>
      cases h3 : (index token.Claims "iss").assertString with
      | none => simp
      | some iss =>
        cases h4 : (index token.Claims "aud").assertString with
        | none => simp
        | some aud =>
          cases h5 : env.FetchJWKS jwksURL with
          | error e => simp
          | ok jwks =>
            cases h6 : JWKS.FindKey jwks kid with
            | error e => simp [h6]
            | ok key =>
              simp only [h6]
              split
              · simp
              · simp
              · split
                · simp
                · split
                  · simp
                  · split <;> simp

/-- Every error return carries the empty string. -/
theorem ValidateToken_error_empty (env : JwtEnv) (idToken : String) (tr : List Call)
    (s err : String)
    (h : ValidateTokenAndGenerateJWT env idToken = (tr, .returned s (some err))) :
    s = "" := by
  have h2 : (ValidateTokenAndGenerateJWT env idToken).2 = .returned s (some err) := by
    rw [h]
  rcases ValidateToken_outcomes env idToken with hp | ⟨e, he⟩ | ⟨t, ht⟩
  · rw [hp] at h2; simp at h2
  · rw [he] at h2
    simp only [Outcome.returned.injEq] at h2
    exact h2.1.symm
  · rw [ht] at h2; simp at h2

theorem Time.Unix_add_hour (t : Time) :
    Time.Unix (Time.Add t (Hour * 1)) = Time.Unix t + 3600 := by
  unfold Time.Unix Time.Add Hour Minute
  have h : t + 60 * (60 * Second) * 1 = t + 3600 * Second := by ring
  rw [h]
  exact Int.add_mul_ediv_right t 3600 (by decide)

/-- A failed type assertion on `kid`, `iss` or `aud` panics right after the
unverified parse. -/
theorem ValidateToken_panics (env : JwtEnv) (idToken : String) (token : Token)
    (hparse : env.ParseUnverified idToken = .ok token)
    (h : (index token.Header "kid").assertString = none ∨
         (index token.Claims "iss").assertString = none ∨
         (index token.Claims "aud").assertString = none) :
    ValidateTokenAndGenerateJWT env idToken = ([.ParseUnverified], .panicked) := by
  unfold ValidateTokenAndGenerateJWT
  simp only [hparse]
  cases h2 : (index token.Header "kid").assertString with
  | none => rfl
  | some kid =>
    cases h3 : (index token.Claims "iss").assertString with
    | none => rfl
    | some iss =>
      cases h4 : (index token.Claims "aud").assertString with
      | none => rfl
      | some aud => simp [h2, h3, h4] at h

/-- With `kid`, `iss` and `aud` present as strings the call returns. -/
theorem ValidateToken_returns (env : JwtEnv) (idToken : String) (token : Token)
    (kid iss aud : String)
    (hparse : env.ParseUnverified idToken = .ok token)
    (hkid : index token.Header "kid" = .str kid)
    (hiss : index token.Claims "iss" = .str iss)
    (haud : index token.Claims "aud" = .str aud) :
    ∃ tr s err, ValidateTokenAndGenerateJWT env idToken = (tr, .returned s err) := by
  unfold ValidateTokenAndGenerateJWT
  simp only [hparse, hkid, hiss, haud, Value.assertString]
  cases h5 : env.FetchJWKS jwksURL with
  | error e => exact ⟨_, _, _, rfl⟩
  | ok jwks =>
    simp only
    cases h6 : JWKS.FindKey jwks kid with
    | error e => exact ⟨_, _, _, rfl⟩
    | ok key =>
      simp only
      split
      · exact ⟨_, _, _, rfl⟩
      · rename_i hnn
        obtain ⟨_, _, _, _, _, hcontra⟩ := jwt.Parse_inv _ _ _ _ hnn
        simp at hcontra
      · split
        · exact ⟨_, _, _, rfl⟩
        · split
          · exact ⟨_, _, _, rfl⟩
          · split <;> exact ⟨_, _, _, rfl⟩

/-! ## Claims about `ValidateTokenAndGenerateJWT` -/

set_option maxRecDepth 20000

/-- C1: `ValidateTokenAndGenerateJWT` returns a token with a nil error only if
the key set contains a key with the token's `kid`, the token uses an RSA
method and is valid under that key, `iss` starts with
"https://login.microsoftonline.com/" and `aud` equals `CLIENT_ID`; whenever
one of these fails and the function returns, it returns the empty string and
a non-nil error. -/
theorem ValidateToken_accepts_only_checked (env : JwtEnv) (idToken : String) :
    (∀ tr s, ValidateTokenAndGenerateJWT env idToken = (tr, .returned s none) →
      Checks env idToken) ∧
    (¬ Checks env idToken → ∀ tr s err,
      ValidateTokenAndGenerateJWT env idToken = (tr, .returned s err) →
      s = "" ∧ err ≠ none) := by
  have hsucc : ∀ tr s, ValidateTokenAndGenerateJWT env idToken = (tr, .returned s none) →
      Checks env idToken := by
    intro tr s h
    obtain ⟨token, kid, iss, aud, jwks, key, h1, h2, h3, h4, h5, h6, h7, h8, h9, h10, -⟩ :=
      ValidateToken_success_inv env idToken tr s h
    obtain ⟨hmem, hk⟩ := JWKS.FindKey_ok jwks kid key h6
    refine ⟨token, kid, iss, aud, jwks, key, h1, h2, h3, h4, h5, ⟨hmem, hk, h6⟩, ⟨h7, h8⟩,
      ?_, h10⟩
    simpa [strings.HasPrefix] using h9
  refine ⟨hsucc, ?_⟩
  intro hno tr s err h
  cases err with
  | none => exact absurd (hsucc tr s h) hno
  | some e => exact ⟨ValidateToken_error_empty env idToken tr s e h, by simp⟩

theorem ValidateToken_accepts_only_checked_witness :
    ValidateTokenAndGenerateJWT sampleJwtEnv sampleIdToken =
      ([.ParseUnverified, .FetchJWKS, .FindKey, .Parse, .SignedString],
       .returned "HS256:hunter2" none) ∧
    Checks sampleJwtEnv sampleIdToken ∧
    ValidateTokenAndGenerateJWT sampleJwtEnv "not.a.token" =
      ([.ParseUnverified],
       .returned "" (some "invalid token: token contains an invalid number of segments")) :=
  ⟨rfl,
   (ValidateToken_accepts_only_checked sampleJwtEnv sampleIdToken).1
     [.ParseUnverified, .FetchJWKS, .FindKey, .Parse, .SignedString] "HS256:hunter2" rfl,
   rfl⟩

/-- C5: on success the returned string is the HS256 signature, under the
`JWT_KEY` environment value, of a token whose claims are exactly `sub`, the
`sub` claim of the id_token, and `exp`, the current Unix time plus 3600. -/
theorem ValidateToken_mints (env : JwtEnv) (idToken : String) (tr : List Call) (s : String)
    (h : ValidateTokenAndGenerateJWT env idToken = (tr, .returned s none)) :
    ∃ token minted,
      env.ParseUnverified idToken = .ok token ∧
      env.SignedString minted (env.Getenv "JWT_KEY") = .ok s ∧
      minted.Method = .SigningMethodHMAC "HS256" ∧
      index minted.Header "alg" = .str "HS256" ∧
      minted.Claims =
        [("sub", index token.Claims "sub"), ("exp", .num (Time.Unix env.now + 3600))] := by
  obtain ⟨token, kid, iss, aud, jwks, key, h1, -, -, -, -, -, -, -, -, -, hsign⟩ :=
    ValidateToken_success_inv env idToken tr s h
  refine ⟨token, mintedToken env token, h1, hsign, rfl, rfl, ?_⟩
  simp only [mintedToken, NewWithClaims, Time.Unix_add_hour]

theorem ValidateToken_mints_witness :
    ValidateTokenAndGenerateJWT sampleJwtEnv sampleIdToken =
      ([.ParseUnverified, .FetchJWKS, .FindKey, .Parse, .SignedString],
       .returned "HS256:hunter2" none) ∧
    Time.Unix sampleJwtEnv.now + 3600 = 1700003600 ∧
    ∃ token minted,
      sampleJwtEnv.ParseUnverified sampleIdToken = .ok token ∧
      sampleJwtEnv.SignedString minted (sampleJwtEnv.Getenv "JWT_KEY") = .ok "HS256:hunter2" ∧
      minted.Method = .SigningMethodHMAC "HS256" ∧
      index minted.Header "alg" = .str "HS256" ∧
      minted.Claims =
        [("sub", index token.Claims "sub"),
         ("exp", .num (Time.Unix sampleJwtEnv.now + 3600))] :=
  ⟨rfl, by decide,
   ValidateToken_mints sampleJwtEnv sampleIdToken
     [.ParseUnverified, .FetchJWKS, .FindKey, .Parse, .SignedString] "HS256:hunter2" rfl⟩

/-- C10: the function is not total on tokens that parse: some id_token that
`ParseUnverified` accepts makes it panic; whenever the `kid` header, the `iss`
claim or the `aud` claim of a parsed token is not a string the call panics
having made no call but the unverified parse (no key fetch, no signature
check); and when all three are strings the call returns, either a token with
a nil error or the empty string with an error. -/
theorem ValidateToken_not_total :
    (∃ (env : JwtEnv) (idToken : String) (token : Token),
      env.ParseUnverified idToken = .ok token ∧
      ValidateTokenAndGenerateJWT env idToken = ([.ParseUnverified], .panicked)) ∧
    (∀ (env : JwtEnv) (idToken : String) (token : Token),
      env.ParseUnverified idToken = .ok token →
      ((index token.Header "kid").assertString = none ∨
       (index token.Claims "iss").assertString = none ∨
       (index token.Claims "aud").assertString = none) →
      ValidateTokenAndGenerateJWT env idToken = ([.ParseUnverified], .panicked)) ∧
    (∀ (env : JwtEnv) (idToken : String) (token : Token) (kid iss aud : String),
      env.ParseUnverified idToken = .ok token →
      index token.Header "kid" = .str kid →
      index token.Claims "iss" = .str iss →
      index token.Claims "aud" = .str aud →
      (∃ s, (ValidateTokenAndGenerateJWT env idToken).2 = .returned s none) ∨
      (∃ err, (ValidateTokenAndGenerateJWT env idToken).2 = .returned "" (some err))) := by
  refine ⟨⟨sampleJwtEnv, noKidIdToken, noKidToken, rfl, ?_⟩, ValidateToken_panics, ?_⟩
  · exact ValidateToken_panics sampleJwtEnv noKidIdToken noKidToken rfl (Or.inl rfl)
  · intro env idToken token kid iss aud hparse hkid hiss haud
    obtain ⟨tr, s, err, hret⟩ := ValidateToken_returns env idToken token kid iss aud hparse
      hkid hiss haud
    rcases ValidateToken_outcomes env idToken with hp | he | hs
    · rw [hret] at hp
      simp at hp
    · exact Or.inr he
    · exact Or.inl hs

theorem ValidateToken_not_total_witness :
    sampleJwtEnv.ParseUnverified noKidIdToken = .ok noKidToken ∧
    ValidateTokenAndGenerateJWT sampleJwtEnv noKidIdToken = ([.ParseUnverified], .panicked) ∧
    sampleJwtEnv.ParseUnverified audListIdToken = .ok audListToken ∧
    ValidateTokenAndGenerateJWT sampleJwtEnv audListIdToken =
      ([.ParseUnverified], .panicked) :=
  ⟨rfl,
   ValidateToken_not_total.2.1 sampleJwtEnv noKidIdToken noKidToken rfl (Or.inl rfl),
   rfl,
   ValidateToken_not_total.2.1 sampleJwtEnv audListIdToken audListToken rfl
     (Or.inr (Or.inr rfl))⟩

end Society
